import Mathlib

/-! # Chat relay server (`backend/server.js`) and its client: model and properties

The socket handlers of `server.js` are embedded as pure functions from the
handler's inputs (the socket, the payload, the behaviour of `pool.query`) to an
`Outcome`: the list of calls the handler makes on its collaborators, in order,
and the exception that escapes the handler, if any.  The one module-level
variable `connectedUsers` is threaded explicitly.

The handlers of the input controls of the mobile client (`mobile/App.js`) are
embedded the same way, on the state variables they read and write (`Client`).

What is modelled from the libraries, not from `server.js`:
* `io.emit` reaches every connected socket, `socket.emit` the socket itself,
  `socket.broadcast.emit` every connected socket but the socket itself
  (`recipients`);
* the transport fires `connection` once per fresh socket and `disconnect` only
  for a socket that is connected (`deliverable`);
* an exception that escapes a handler is an uncaught exception, for which
  `server.js` installs no listener: the process exits and dispatches nothing
  any more (`step`, `run`).

Console output is not modelled, except that the template literal of the
`console.log` in `send_message` converts `username` and `content` to strings,
which can throw (`JSValue.stringifies`).
-/

namespace ChatRelay

/-! ## JavaScript values -/

/-- Values that a payload decoded from the wire can hold, plus `undefined` (an
event emitted without argument, a property that is absent).  Numbers are
restricted to integers: only their truthiness matters here. -/
inductive JSValue where
  | undefined
  | null
  | bool (b : Bool)
  | number (n : Int)
  | string (s : String)
  | array (items : List JSValue)
  | object (fields : List (String × JSValue))

/-- Exceptions and promise rejections. -/
inductive JSError where
  | typeError
  | queryError (reason : String)
  deriving DecidableEq, Repr

/-- JavaScript truthiness, as tested by `!username` and `!content`. -/
def JSValue.truthy : JSValue → Bool
  | .undefined => false
  | .null => false
  | .bool b => b
  | .number n => n != 0
  | .string s => s != ""
  | .array _ => true
  | .object _ => true

/-- Property read `v.key` for the keys the server reads (`username`, `content`,
`id`, `created_at`, none of which a prototype defines): reading a property of
`undefined` or `null` throws a `TypeError`, an object yields the property or
`undefined`, any other value yields `undefined`.  The destructuring
`const { username, content } = data` throws in the same two cases. -/
def JSValue.getProp (v : JSValue) (key : String) : Except JSError JSValue :=
  match v with
  | .undefined => .error .typeError
  | .null => .error .typeError
  | .object fields => .ok ((fields.lookup key).getD .undefined)
  | _ => .ok .undefined

mutual
/-- Whether the string conversion of a template literal succeeds on the value.
An object decoded from the wire whose own `toString` property shadows
`Object.prototype.toString` holds a value that is not callable there, and the
conversion throws a `TypeError`; an array joins the conversions of its
elements, skipping `null` and `undefined`. -/
def JSValue.stringifies : JSValue → Bool
  | .array items => stringifiesAll items
  | .object fields => !(fields.map Prod.fst).contains "toString"
  | _ => true
/-- All elements of an array convert to a string. -/
def stringifiesAll : List JSValue → Bool
  | [] => true
  | v :: vs => v.stringifies && stringifiesAll vs
end

/-! ## Collaborators and effects -/

/-- Identifier of a socket (`socket.id`). -/
abbrev SocketId := Nat

/-- Outbound socket events with their payloads. -/
inductive OutEvent where
  | user_count (count : Int)
  | new_message (id username content created_at : JSValue)
  | user_typing (username : JSValue)
  | user_stop_typing (username : JSValue)
  | messages_cleared
  | error (message : String)

/-- Resolved value of `pool.query`: only `rows` is read. -/
structure QueryResult where
  rows : List JSValue

/-- Behaviour of `pool.query(sql, params)` while one event is handled: the
promise resolves with a result or rejects. -/
abbrev Pool := String → List JSValue → Except JSError QueryResult

/-- Body of an HTTP response sent with `res.json`. -/
structure HttpResponse where
  status : Nat
  success : Bool
  message : Option String
  error : Option String
  deriving DecidableEq, Repr

/-- One call of a handler on a collaborator. -/
inductive Effect where
  | ioEmit (ev : OutEvent)
  | socketEmit (socket : SocketId) (ev : OutEvent)
  | socketBroadcastEmit (socket : SocketId) (ev : OutEvent)
  | poolQuery (sql : String) (params : List JSValue)
  | resJson (response : HttpResponse)

/-- What a handler did: its calls in order, and the exception that escaped it. -/
structure Outcome where
  effects : List Effect
  thrown : Option JSError

/-- Sockets that receive an emit, given the sockets connected when it is made. -/
def recipients (active : List SocketId) : Effect → List SocketId
  | .ioEmit _ => active
  | .socketEmit socket _ => active.filter (fun c => c == socket)
  | .socketBroadcastEmit socket _ => active.filter (fun c => c != socket)
  | .poolQuery _ _ => []
  | .resJson _ => []

/-- Event carried by an emit. -/
def Effect.event? : Effect → Option OutEvent
  | .ioEmit ev => some ev
  | .socketEmit _ ev => some ev
  | .socketBroadcastEmit _ ev => some ev
  | .poolQuery _ _ => none
  | .resJson _ => none

/-- Notices delivered by one effect: one per recipient. -/
def deliver (active : List SocketId) (eff : Effect) : List (SocketId × OutEvent) :=
  match eff.event? with
  | some ev => (recipients active eff).map (fun c => (c, ev))
  | none => []

/-- Notices delivered by a list of effects. -/
def deliveries (active : List SocketId) (effs : List Effect) : List (SocketId × OutEvent) :=
  effs.flatMap (deliver active)

/-! ## Handlers -/

/-- SQL text of the insert in `send_message`. -/
def insertSql : String :=
  "INSERT INTO messages (username, content) VALUES ($1, $2) RETURNING *"

/-- SQL text of the delete in `DELETE /api/messages`. -/
def deleteSql : String := "DELETE FROM messages"

/-- The `try` block of the `send_message` handler: the calls made, and the
exception or rejection that leaves the block, if any. -/
def sendMessageTry (pool : Pool) (socket : SocketId) (data : JSValue) :
    List Effect × Option JSError :=
  -- const { username, content } = data;
  match data.getProp "username", data.getProp "content" with
  | .ok username, .ok content =>
    -- if (!username || !content)
    if !username.truthy || !content.truthy then
      ([.socketEmit socket (.error "Username and content are required")], none)
    else
      -- const result = await pool.query(..., [username, content]);
      let query := Effect.poolQuery insertSql [username, content]
      match pool insertSql [username, content] with
      | .error e => ([query], some e)
      | .ok result =>
        -- const savedMessage = result.rows[0];
        let savedMessage := result.rows.head?.getD .undefined
        -- the template literal of console.log
        if !username.stringifies || !content.stringifies then
          ([query], some .typeError)
        else
          match savedMessage.getProp "id", savedMessage.getProp "username",
            savedMessage.getProp "content", savedMessage.getProp "created_at" with
          | .ok id, .ok u, .ok c, .ok t =>
            ([query, .ioEmit (.new_message id u c t)], none)
          | _, _, _, _ => ([query], some .typeError)
  | _, _ => ([], some .typeError)

/-- Handler of `send_message`: the `try` block, and the `catch` block that
reports any exception to the sender. -/
def sendMessage (pool : Pool) (socket : SocketId) (data : JSValue) : Outcome :=
  match sendMessageTry pool socket data with
  | (effects, none) => ⟨effects, none⟩
  | (effects, some _) =>
    ⟨effects ++ [.socketEmit socket (.error "Failed to send message")], none⟩

/-- Handler of `typing`. -/
def typing (socket : SocketId) (data : JSValue) : Outcome :=
  match data.getProp "username" with
  | .ok username => ⟨[.socketBroadcastEmit socket (.user_typing username)], none⟩
  | .error e => ⟨[], some e⟩

/-- Handler of `stop_typing`. -/
def stopTyping (socket : SocketId) (data : JSValue) : Outcome :=
  match data.getProp "username" with
  | .ok username => ⟨[.socketBroadcastEmit socket (.user_stop_typing username)], none⟩
  | .error e => ⟨[], some e⟩

/-- Handler of `connection`, on the value of `connectedUsers`. -/
def onConnection (connectedUsers : Int) : Int × Outcome :=
  let connectedUsers := connectedUsers + 1
  (connectedUsers, ⟨[.ioEmit (.user_count connectedUsers)], none⟩)

/-- Handler of `disconnect`, on the value of `connectedUsers`. -/
def onDisconnect (connectedUsers : Int) : Int × Outcome :=
  let connectedUsers := connectedUsers - 1
  (connectedUsers, ⟨[.ioEmit (.user_count connectedUsers)], none⟩)

/-- Handler of `DELETE /api/messages`. -/
def deleteMessages (pool : Pool) : Outcome :=
  match pool deleteSql [] with
  | .ok _ =>
    ⟨[.poolQuery deleteSql [],
      .resJson ⟨200, true, some "All messages deleted", none⟩,
      .ioEmit .messages_cleared], none⟩
  | .error _ =>
    ⟨[.poolQuery deleteSql [],
      .resJson ⟨500, false, none, some "Failed to delete messages"⟩], none⟩

/-! ## The server as a transition system -/

/-- State of the process: the variable `connectedUsers` of `server.js`, the
transport's registry of connected sockets, and whether the process has exited. -/
structure Server where
  connectedUsers : Int
  sockets : List SocketId
  exited : Bool

/-- State at start-up. -/
def Server.init : Server := ⟨0, [], false⟩

/-- Events dispatched to the server.  An event whose handler queries the
database carries the behaviour of `pool.query` during its handling. -/
inductive Event where
  | connection (socket : SocketId)
  | disconnect (socket : SocketId)
  | send_message (socket : SocketId) (data : JSValue) (pool : Pool)
  | typing (socket : SocketId) (data : JSValue)
  | stop_typing (socket : SocketId) (data : JSValue)
  | delete_messages (pool : Pool)

/-- The handler of one event, run on the state.  The transport registers a
socket before it fires `connection` and removes it before it fires
`disconnect`. -/
def handle (s : Server) : Event → Server × Outcome
  | .connection socket =>
    let r := onConnection s.connectedUsers
    ({ s with connectedUsers := r.1, sockets := s.sockets ++ [socket] }, r.2)
  | .disconnect socket =>
    let r := onDisconnect s.connectedUsers
    ({ s with connectedUsers := r.1, sockets := s.sockets.erase socket }, r.2)
  | .send_message socket data pool => (s, sendMessage pool socket data)
  | .typing socket data => (s, typing socket data)
  | .stop_typing socket data => (s, stopTyping socket data)
  | .delete_messages pool => (s, deleteMessages pool)

/-- Dispatch of one event by the running process.  `server.js` installs no
listener of `uncaughtException`: an exception that escapes the handler ends the
process. -/
def step (s : Server) (e : Event) : Server × Outcome :=
  let r := handle s e
  (if r.2.thrown.isSome then { r.1 with exited := true } else r.1, r.2)

/-- Dispatch of a sequence of events: the final state and the outcomes in
order.  Once the process has exited, no event is dispatched any more. -/
def run (s : Server) : List Event → Server × List Outcome
  | [] => (s, [])
  | e :: es =>
    if s.exited then (s, [])
    else
      let r := step s e
      let rest := run r.1 es
      (rest.1, r.2 :: rest.2)

/-- Whether the transport can fire the event in the state: the process is
running, and the event is a `connection` for a socket that is not registered
yet, a socket event for a registered socket, or a request. -/
def deliverable (s : Server) (e : Event) : Bool :=
  !s.exited &&
    match e with
    | .connection socket => !s.sockets.contains socket
    | .disconnect socket => s.sockets.contains socket
    | .send_message socket _ _ => s.sockets.contains socket
    | .typing socket _ => s.sockets.contains socket
    | .stop_typing socket _ => s.sockets.contains socket
    | .delete_messages _ => true

/-- Whether the transport can fire the sequence of events from the state. -/
def admissible (s : Server) : List Event → Bool
  | [] => true
  | e :: es => deliverable s e && admissible (step s e).1 es

/-- Number of `connection` events in a sequence. -/
def connects : List Event → Nat
  | [] => 0
  | .connection _ :: es => connects es + 1
  | _ :: es => connects es

/-- Number of `disconnect` events in a sequence. -/
def disconnects : List Event → Nat
  | [] => 0
  | .disconnect _ :: es => disconnects es + 1
  | _ :: es => disconnects es

/-- Counts carried by the `user_count` broadcasts among the effects, in order. -/
def userCounts : List Effect → List Int
  | [] => []
  | .ioEmit (.user_count n) :: effs => n :: userCounts effs
  | _ :: effs => userCounts effs

/-- All calls made during a run, in order. -/
def effectsOf (outs : List Outcome) : List Effect :=
  outs.flatMap Outcome.effects

/-! ## Observations on outcomes -/

/-- Notices a connection receives from a list of effects, in order. -/
def received (active : List SocketId) (effs : List Effect) (conn : SocketId) : List OutEvent :=
  ((deliveries active effs).filter (fun d => d.1 == conn)).map Prod.snd

/-- Queries sent to the database among the effects, in order. -/
def queries : List Effect → List (String × List JSValue)
  | [] => []
  | .poolQuery sql params :: effs => (sql, params) :: queries effs
  | _ :: effs => queries effs

/-- Whether the payload is `undefined` or `null`. -/
def JSValue.isNullish : JSValue → Bool
  | .undefined => true
  | .null => true
  | _ => false

/-- Whether a property of the payload is empty or missing: it cannot be read
(the payload itself is missing) or its value is falsy (`undefined` for an
absent property, `null`, the empty string, `false`, `0`). -/
def JSValue.lacks (data : JSValue) (key : String) : Bool :=
  match data.getProp key with
  | .ok v => !v.truthy
  | .error _ => true

/-- Whether the payload gets past the validation of `send_message`: the
destructuring succeeds and the guard `!username || !content` is false. -/
def passesValidation (data : JSValue) : Bool :=
  match data.getProp "username", data.getProp "content" with
  | .ok username, .ok content => !(!username.truthy || !content.truthy)
  | _, _ => false

/-- Whether an insert among the effects was accepted by the database, which
then holds a new record. -/
def insertAccepted (pool : Pool) : List Effect → Bool
  | [] => false
  | .poolQuery sql params :: effs =>
    (sql == insertSql && (pool sql params).isOk) || insertAccepted pool effs
  | _ :: effs => insertAccepted pool effs

/-- Whether handling a `send_message` event appends a record to the store. -/
def recordAppended (pool : Pool) (socket : SocketId) (data : JSValue) : Bool :=
  insertAccepted pool (sendMessage pool socket data).effects

/-- The notice of `stop_typing` that corresponds to a notice of `typing`. -/
def OutEvent.stopOf : OutEvent → OutEvent
  | .user_typing username => .user_stop_typing username
  | ev => ev

/-- A database that accepts every query and returns the given rows. -/
def poolReturning (rows : List JSValue) : Pool := fun _ _ => .ok ⟨rows⟩

/-- A database that rejects every query. -/
def poolFailing : Pool := fun _ _ => .error (.queryError "connection terminated")

/-- The payload of the example of the specification. -/
def aliceHi : JSValue := .object [("username", .string "alice"), ("content", .string "hi")]

/-- A record as the insert returns it for `aliceHi`. -/
def aliceRow : JSValue :=
  .object [("id", .number 7), ("username", .string "alice"), ("content", .string "hi"),
    ("created_at", .string "2024-01-01T00:00:00.000Z")]

/-! ## The mobile client (`mobile/App.js`) -/

/-- Whether `String.prototype.trim` strips the character: the white space and
line terminator code points of ECMAScript (tab, line feed, vertical tab, form
feed, carriage return, space, no-break space, the space separators of Unicode,
line and paragraph separator, byte order mark). -/
def isTrimChar (ch : Char) : Bool :=
  let n := ch.toNat
  n == 0x09 || n == 0x0A || n == 0x0B || n == 0x0C || n == 0x0D || n == 0x20
    || n == 0xA0 || n == 0x1680 || (0x2000 ≤ n && n ≤ 0x200A) || n == 0x2028
    || n == 0x2029 || n == 0x202F || n == 0x205F || n == 0x3000 || n == 0xFEFF

/-- The method `trim` of strings: strips the leading and the trailing characters
that `isTrimChar` accepts.  A string is taken as its sequence of code points;
every character that is stripped is a single code unit. -/
def trim (s : String) : String :=
  ⟨((s.data.dropWhile isTrimChar).reverse.dropWhile isTrimChar).reverse⟩

/-- What a handler of the client does besides updating the state: an emit on
the socket, by event name, or an alert. -/
inductive ClientEffect where
  | send_message (data : JSValue)
  | typing (data : JSValue)
  | stop_typing (data : JSValue)
  | alert (title message : String)

/-- State of the component `App` that the handlers of the input controls read
or write: the state variables `username`, `message` and `hasJoined`, whether
`socketRef.current` holds the socket, and whether the timer kept in
`typingTimeoutRef` is pending. -/
structure Client where
  username : String
  message : String
  hasJoined : Bool
  socketRef : Bool
  typingTimeoutRef : Bool

/-- State of the component at its first render. -/
def Client.init : Client := ⟨"", "", false, false, false⟩

/-- The call `socketRef.current?.emit(...)`: nothing is emitted while the
reference is `null`. -/
def Client.emit (c : Client) (eff : ClientEffect) : List ClientEffect :=
  if c.socketRef then [eff] else []

/-- The payload `{ username }`. -/
def usernamePayload (username : String) : JSValue :=
  .object [("username", .string username)]

/-- The function `handleJoin`. -/
def handleJoin (c : Client) : Client × List ClientEffect :=
  if trim c.username = "" then
    (c, [.alert "Error" "Please enter your username"])
  else
    ({ c with hasJoined := true }, [])

/-- The function `handleSendMessage`. -/
def handleSendMessage (c : Client) : Client × List ClientEffect :=
  if trim c.message = "" then
    (c, [])
  else
    ({ c with message := "" },
      c.emit (.send_message
          (.object [("username", .string c.username), ("content", .string (trim c.message))]))
        ++ c.emit (.stop_typing (usernamePayload c.username)))

/-- The function `handleMessageChange`; a timer that is pending is replaced. -/
def handleMessageChange (c : Client) (text : String) : Client × List ClientEffect :=
  if text.length > 0 then
    ({ c with message := text, typingTimeoutRef := true },
      c.emit (.typing (usernamePayload c.username)))
  else
    ({ c with message := text }, c.emit (.stop_typing (usernamePayload c.username)))

/-- What happens to the component: the effect that runs once after the first
render, the input controls of the two screens, and the timer. -/
inductive UIAction where
  | mount
  | changeUsername (text : String)
  | pressJoin
  | changeMessage (text : String)
  | pressSend
  | timerFires

/-- One action on the component.  The login screen, rendered while `hasJoined`
is false, holds the username input (`onChangeText={setUsername}`) and the join
button; the chat screen holds the message input and the send button, which is
disabled while `message.trim()` is empty.  An action on a control that is not
rendered or is disabled does nothing. -/
def clientStep (c : Client) : UIAction → Client × List ClientEffect
  | .mount => ({ c with socketRef := true }, [])
  | .changeUsername text =>
    if !c.hasJoined then ({ c with username := text }, []) else (c, [])
  | .pressJoin =>
    if !c.hasJoined then handleJoin c else (c, [])
  | .changeMessage text =>
    if c.hasJoined then handleMessageChange c text else (c, [])
  | .pressSend =>
    if c.hasJoined && !(trim c.message = "") then handleSendMessage c else (c, [])
  | .timerFires =>
    if c.typingTimeoutRef then
      ({ c with typingTimeoutRef := false }, c.emit (.stop_typing (usernamePayload c.username)))
    else (c, [])

/-- A sequence of actions on the component: the final state and the effects in
order. -/
def clientRun (c : Client) : List UIAction → Client × List ClientEffect
  | [] => (c, [])
  | a :: as =>
    let r := clientStep c a
    let rest := clientRun r.1 as
    (rest.1, r.2 ++ rest.2)

/-- Payloads of the `send_message` emits among the effects, in order. -/
def sentMessages : List ClientEffect → List JSValue
  | [] => []
  | .send_message data :: effs => data :: sentMessages effs
  | _ :: effs => sentMessages effs

/-- The error notice of the validation of `send_message`, on a socket. -/
def validationError (socket : SocketId) : Effect :=
  .socketEmit socket (.error "Username and content are required")

/-! ## Lemmas on runs -/

theorem userCounts_append (a b : List Effect) :
    userCounts (a ++ b) = userCounts a ++ userCounts b := by
  induction a with
  | nil => rfl
  | cons x xs ih =>
    cases x with
    | ioEmit ev => cases ev <;> simp [userCounts, ih]
    | socketEmit _ _ => simp [userCounts, ih]
    | socketBroadcastEmit _ _ => simp [userCounts, ih]
    | poolQuery _ _ => simp [userCounts, ih]
    | resJson _ => simp [userCounts, ih]

theorem userCounts_sendMessageTry (pool : Pool) (socket : SocketId) (data : JSValue) :
    userCounts (sendMessageTry pool socket data).1 = [] := by
  unfold sendMessageTry
  repeat' (first | rfl | split | dsimp only)

theorem userCounts_sendMessage (pool : Pool) (socket : SocketId) (data : JSValue) :
    userCounts (sendMessage pool socket data).effects = [] := by
  have h := userCounts_sendMessageTry pool socket data
  unfold sendMessage
  split
  · next heq => rw [heq] at h; exact h
  · next heq => rw [heq] at h; simp [userCounts_append, userCounts] at h ⊢; exact h

theorem userCounts_typing (socket : SocketId) (data : JSValue) :
    userCounts (typing socket data).effects = [] := by
  unfold typing
  split <;> simp [userCounts]

theorem userCounts_stopTyping (socket : SocketId) (data : JSValue) :
    userCounts (stopTyping socket data).effects = [] := by
  unfold stopTyping
  split <;> simp [userCounts]

theorem userCounts_deleteMessages (pool : Pool) :
    userCounts (deleteMessages pool).effects = [] := by
  unfold deleteMessages
  split <;> simp [userCounts]

theorem step_outcome (s : Server) (e : Event) : (step s e).2 = (handle s e).2 := rfl

theorem step_connectedUsers (s : Server) (e : Event) :
    (step s e).1.connectedUsers = (handle s e).1.connectedUsers := by
  simp only [step]
  split <;> rfl

theorem step_sockets (s : Server) (e : Event) :
    (step s e).1.sockets = (handle s e).1.sockets := by
  simp only [step]
  split <;> rfl

/-- The first event of an admissible sequence is dispatched. -/
theorem run_cons_of_admissible (s : Server) (e : Event) (es : List Event)
    (hadm : admissible s (e :: es) = true) :
    run s (e :: es) = ((run (step s e).1 es).1, (step s e).2 :: (run (step s e).1 es).2) := by
  simp only [admissible, deliverable, Bool.and_eq_true, Bool.not_eq_true'] at hadm
  simp [run, hadm.1.1]

/-- The count after an admissible run is the count before it plus the connects
minus the disconnects of the run. -/
theorem run_connectedUsers (s : Server) (es : List Event)
    (hadm : admissible s es = true) :
    (run s es).1.connectedUsers
      = s.connectedUsers + (connects es : Int) - (disconnects es : Int) := by
  induction es generalizing s with
  | nil => simp [run, connects, disconnects]
  | cons e es ih =>
    rw [run_cons_of_admissible s e es hadm]
    simp only [admissible, Bool.and_eq_true] at hadm
    rw [ih _ hadm.2, step_connectedUsers]
    cases e <;> simp [handle, onConnection, onDisconnect, connects, disconnects] <;> omega

/-- Along an admissible run the count stays the number of registered sockets. -/
theorem run_count_eq_length (s : Server) (es : List Event)
    (hadm : admissible s es = true) (hinv : s.connectedUsers = (s.sockets.length : Int)) :
    (run s es).1.connectedUsers = ((run s es).1.sockets.length : Int) := by
  induction es generalizing s with
  | nil => simpa [run] using hinv
  | cons e es ih =>
    rw [run_cons_of_admissible s e es hadm]
    simp only [admissible, Bool.and_eq_true] at hadm
    obtain ⟨hd, hrest⟩ := hadm
    apply ih _ hrest
    rw [step_connectedUsers, step_sockets]
    cases e with
    | connection socket => simp [handle, onConnection, hinv]
    | disconnect socket =>
      have hmem : socket ∈ s.sockets := by
        simp only [deliverable, Bool.and_eq_true] at hd
        simpa using hd.2
      have hpos : 0 < s.sockets.length := List.length_pos_of_mem hmem
      simp [handle, onDisconnect, hinv, List.length_erase_of_mem hmem]
      omega
    | send_message _ _ _ => simpa [handle] using hinv
    | typing _ _ => simpa [handle] using hinv
    | stop_typing _ _ => simpa [handle] using hinv
    | delete_messages _ => simpa [handle] using hinv

/-- Every initial segment of an admissible sequence is admissible. -/
theorem admissible_take (s : Server) (es : List Event) (k : Nat)
    (hadm : admissible s es = true) : admissible s (es.take k) = true := by
  induction es generalizing s k with
  | nil => simp [admissible]
  | cons e es ih =>
    cases k with
    | zero => simp [admissible]
    | succ k =>
      simp only [admissible, Bool.and_eq_true] at hadm
      simp only [List.take_succ_cons, admissible, Bool.and_eq_true]
      exact ⟨hadm.1, ih _ _ hadm.2⟩

/-- The last `user_count` broadcast of an admissible run carries the final count. -/
theorem run_last_userCount (s : Server) (es : List Event)
    (hadm : admissible s es = true) :
    (userCounts (effectsOf (run s es).2)).getLast?
      = if connects es + disconnects es = 0 then none
        else some (run s es).1.connectedUsers := by
  induction es generalizing s with
  | nil => simp [run, effectsOf, userCounts, connects, disconnects]
  | cons e es ih =>
    rw [run_cons_of_admissible s e es hadm]
    simp only [admissible, Bool.and_eq_true] at hadm
    have hrest := ih (step s e).1 hadm.2
    have hcount := run_connectedUsers (step s e).1 es hadm.2
    rw [step_connectedUsers] at hcount
    simp only [effectsOf] at hrest
    simp only [effectsOf, List.flatMap_cons, userCounts_append, List.getLast?_append, hrest,
      step_outcome]
    cases e with
    | connection socket =>
      by_cases h0 : connects es + disconnects es = 0
      · have hc : connects es = 0 := by omega
        have hd : disconnects es = 0 := by omega
        simp [h0, handle, onConnection, userCounts, connects, disconnects, hcount, hc, hd]
      · simp [h0, connects, disconnects]
    | disconnect socket =>
      by_cases h0 : connects es + disconnects es = 0
      · have hc : connects es = 0 := by omega
        have hd : disconnects es = 0 := by omega
        simp [h0, handle, onDisconnect, userCounts, connects, disconnects, hcount, hc, hd]
      · simp [h0, connects, disconnects]
    | send_message socket data pool =>
      by_cases h0 : connects es + disconnects es = 0 <;>
        simp [h0, handle, userCounts_sendMessage, connects, disconnects]
    | typing socket data =>
      by_cases h0 : connects es + disconnects es = 0 <;>
        simp [h0, handle, userCounts_typing, connects, disconnects]
    | stop_typing socket data =>
      by_cases h0 : connects es + disconnects es = 0 <;>
        simp [h0, handle, userCounts_stopTyping, connects, disconnects]
    | delete_messages pool =>
      by_cases h0 : connects es + disconnects es = 0 <;>
        simp [h0, handle, userCounts_deleteMessages, connects, disconnects]

/-! ## Lemmas on deliveries -/

theorem received_map_pair (l : List SocketId) (ev : OutEvent) (conn : SocketId)
    (hnd : l.Nodup) :
    ((l.map (fun c => (c, ev))).filter (fun d => d.1 == conn)).map Prod.snd
      = if conn ∈ l then [ev] else [] := by
  induction l with
  | nil => simp
  | cons x xs ih =>
    obtain ⟨hx, hxs⟩ := List.nodup_cons.mp hnd
    by_cases hxc : x = conn
    · subst hxc
      have hnil : ((xs.map (fun c => (c, ev))).filter (fun d => d.1 == x)).map Prod.snd = [] := by
        rw [ih hxs]; simp [hx]
      simp [List.filter_cons, hnil]
    · have hne : ¬ conn = x := fun h => hxc h.symm
      simp [List.filter_cons, hxc, hne, ih hxs]

theorem received_ioEmit (active : List SocketId) (ev : OutEvent) (conn : SocketId)
    (hnd : active.Nodup) :
    received active [.ioEmit ev] conn = if conn ∈ active then [ev] else [] := by
  simp only [received, deliveries, List.flatMap_cons, List.flatMap_nil, List.append_nil, deliver,
    Effect.event?, recipients]
  exact received_map_pair active ev conn hnd

theorem received_socketEmit (active : List SocketId) (socket : SocketId) (ev : OutEvent)
    (conn : SocketId) (hnd : active.Nodup) :
    received active [.socketEmit socket ev] conn
      = if conn ∈ active ∧ conn = socket then [ev] else [] := by
  simp only [received, deliveries, List.flatMap_cons, List.flatMap_nil, List.append_nil, deliver,
    Effect.event?, recipients]
  rw [received_map_pair _ ev conn (hnd.filter _)]
  simp [List.mem_filter]

theorem received_socketBroadcastEmit (active : List SocketId) (socket : SocketId)
    (ev : OutEvent) (conn : SocketId) (hnd : active.Nodup) :
    received active [.socketBroadcastEmit socket ev] conn
      = if conn ∈ active ∧ conn ≠ socket then [ev] else [] := by
  simp only [received, deliveries, List.flatMap_cons, List.flatMap_nil, List.append_nil, deliver,
    Effect.event?, recipients]
  rw [received_map_pair _ ev conn (hnd.filter _)]
  simp [List.mem_filter]

theorem received_cons (active : List SocketId) (eff : Effect) (effs : List Effect)
    (conn : SocketId) :
    received active (eff :: effs) conn
      = received active [eff] conn ++ received active effs conn := by
  simp [received, deliveries]

theorem received_poolQuery (active : List SocketId) (sql : String) (params : List JSValue)
    (conn : SocketId) : received active [.poolQuery sql params] conn = [] := by
  simp [received, deliveries, deliver, Effect.event?]

theorem received_resJson (active : List SocketId) (response : HttpResponse)
    (conn : SocketId) : received active [.resJson response] conn = [] := by
  simp [received, deliveries, deliver, Effect.event?]

/-! ## Connection registry -/

/-- C1: for every sequence of events the transport can fire from the initial
state (each disconnect is of a connected socket), the count after the sequence
is the number of connects minus the number of disconnects, the count is never
negative after any initial segment of the sequence, and the last `user_count`
broadcast of the sequence, if there is one, carries that count. -/
theorem user_count_is_net_connections (es : List Event)
    (hadm : admissible Server.init es = true) :
    (run Server.init es).1.connectedUsers = (connects es : Int) - (disconnects es : Int)
    ∧ (∀ k : Nat, 0 ≤ (run Server.init (es.take k)).1.connectedUsers)
    ∧ (userCounts (effectsOf (run Server.init es).2)).getLast?
        = if connects es + disconnects es = 0 then none
          else some ((connects es : Int) - (disconnects es : Int)) := by
  have hfinal : (run Server.init es).1.connectedUsers
      = (connects es : Int) - (disconnects es : Int) := by
    rw [run_connectedUsers _ _ hadm]; simp [Server.init]
  refine ⟨hfinal, ?_, ?_⟩
  · intro k
    have h := run_count_eq_length Server.init (es.take k)
      (admissible_take Server.init es k hadm) (by simp [Server.init])
    rw [h]
    exact Int.natCast_nonneg _
  · rw [run_last_userCount _ _ hadm, hfinal]

/-- Witness of C1: two sockets connect and the first one disconnects. -/
theorem user_count_is_net_connections_witness :
    admissible Server.init [.connection 1, .connection 2, .disconnect 1] = true
    ∧ (run Server.init [.connection 1, .connection 2, .disconnect 1]).1.connectedUsers = 1
    ∧ (userCounts (effectsOf
        (run Server.init [.connection 1, .connection 2, .disconnect 1]).2)).getLast?
        = some 1 := by
  have h := user_count_is_net_connections
    [.connection 1, .connection 2, .disconnect 1] (by decide)
  exact ⟨by decide, h.1, h.2.2⟩

/-! ## Submit message -/

/-- The `send_message` handler never lets an exception escape. -/
theorem sendMessage_thrown (pool : Pool) (socket : SocketId) (data : JSValue) :
    (sendMessage pool socket data).thrown = none := by
  unfold sendMessage
  split <;> rfl

/-- C2: when `username` or `content` of a `send_message` payload is empty or
missing, the handler makes exactly one call, an `error` emit on the sender's
socket; it sends no query to the database, and whatever the connected sockets
the only notice delivered is that `error`, to the sender. -/
theorem invalid_message_rejected (pool : Pool) (socket : SocketId) (data : JSValue)
    (h : data.lacks "username" = true ∨ data.lacks "content" = true) :
    sendMessage pool socket data
        = ⟨[.socketEmit socket (.error
            (if data.isNullish then "Failed to send message"
             else "Username and content are required"))], none⟩
    ∧ queries (sendMessage pool socket data).effects = []
    ∧ ∀ active : List SocketId,
        deliveries active (sendMessage pool socket data).effects
          = (active.filter (fun c => c == socket)).map (fun c =>
              (c, OutEvent.error
                (if data.isNullish then "Failed to send message"
                 else "Username and content are required"))) := by
  have hout : sendMessage pool socket data
        = ⟨[.socketEmit socket (.error
            (if data.isNullish then "Failed to send message"
             else "Username and content are required"))], none⟩ := by
    cases data with
    | undefined => rfl
    | null => rfl
    | bool b => rfl
    | number n => rfl
    | string s => rfl
    | array items => rfl
    | object fields =>
      simp only [JSValue.lacks, JSValue.getProp] at h
      have hg : (!((fields.lookup "username").getD JSValue.undefined).truthy
          || !((fields.lookup "content").getD JSValue.undefined).truthy) = true := by
        rcases h with h | h <;> simp [h]
      simp only [sendMessage, sendMessageTry, JSValue.getProp, hg, JSValue.isNullish]
      rfl
  refine ⟨hout, ?_, ?_⟩
  · rw [hout]; rfl
  · intro active
    rw [hout]
    simp [deliveries, deliver, Effect.event?, recipients]

/-- Witness of C2: a payload with an empty `username`. -/
theorem invalid_message_rejected_witness :
    (JSValue.object [("username", .string ""), ("content", .string "hi")]).lacks "username" = true
    ∧ sendMessage (poolReturning [aliceRow]) 1
        (.object [("username", .string ""), ("content", .string "hi")])
      = ⟨[.socketEmit 1 (.error "Username and content are required")], none⟩ :=
  ⟨rfl, (invalid_message_rejected (poolReturning [aliceRow]) 1
    (.object [("username", .string ""), ("content", .string "hi")]) (Or.inl rfl)).1⟩

/-- C3: when `username` and `content` of a `send_message` payload are non-empty
strings and the insert returns a record, the handler makes two calls, the
insert and one `io.emit` of `new_message` whose payload is the `id`,
`username`, `content` and `created_at` of the returned record; no `error` is
emitted, and every connected socket, the sender included, receives that
`new_message` exactly once and nothing else. -/
theorem valid_message_broadcast (pool : Pool) (active : List SocketId) (socket : SocketId)
    (data : JSValue) (u c : String) (record : List (String × JSValue))
    (others : List JSValue) (hnd : active.Nodup)
    (hu : data.getProp "username" = .ok (.string u))
    (hc : data.getProp "content" = .ok (.string c))
    (hu0 : u ≠ "") (hc0 : c ≠ "")
    (hq : pool insertSql [.string u, .string c] = .ok ⟨.object record :: others⟩) :
    sendMessage pool socket data
        = ⟨[.poolQuery insertSql [.string u, .string c],
            .ioEmit (.new_message
              ((record.lookup "id").getD .undefined)
              ((record.lookup "username").getD .undefined)
              ((record.lookup "content").getD .undefined)
              ((record.lookup "created_at").getD .undefined))], none⟩
    ∧ ∀ conn : SocketId,
        received active (sendMessage pool socket data).effects conn
          = if conn ∈ active then
              [.new_message
                ((record.lookup "id").getD .undefined)
                ((record.lookup "username").getD .undefined)
                ((record.lookup "content").getD .undefined)
                ((record.lookup "created_at").getD .undefined)]
            else [] := by
  have hout : sendMessage pool socket data
        = ⟨[.poolQuery insertSql [.string u, .string c],
            .ioEmit (.new_message
              ((record.lookup "id").getD .undefined)
              ((record.lookup "username").getD .undefined)
              ((record.lookup "content").getD .undefined)
              ((record.lookup "created_at").getD .undefined))], none⟩ := by
    simp only [sendMessage, sendMessageTry, hu, hc, hq]
    simp [JSValue.truthy, hu0, hc0, JSValue.stringifies, JSValue.getProp]
  refine ⟨hout, ?_⟩
  intro conn
  rw [hout, received_cons, received_poolQuery, received_ioEmit _ _ _ hnd]
  simp

/-- Witness of C3: the example of the specification, with two connected sockets. -/
theorem valid_message_broadcast_witness :
    sendMessage (poolReturning [aliceRow]) 1 aliceHi
        = ⟨[.poolQuery insertSql [.string "alice", .string "hi"],
            .ioEmit (.new_message (.number 7) (.string "alice") (.string "hi")
              (.string "2024-01-01T00:00:00.000Z"))], none⟩
    ∧ received [1, 2] (sendMessage (poolReturning [aliceRow]) 1 aliceHi).effects 2
        = [.new_message (.number 7) (.string "alice") (.string "hi")
              (.string "2024-01-01T00:00:00.000Z")] := by
  have h := valid_message_broadcast (poolReturning [aliceRow]) [1, 2] 1 aliceHi "alice" "hi"
    [("id", .number 7), ("username", .string "alice"), ("content", .string "hi"),
      ("created_at", .string "2024-01-01T00:00:00.000Z")] []
    (by decide) rfl rfl (by decide) (by decide) rfl
  exact ⟨h.1, (h.2 2).trans rfl⟩

/-- C4: when `username` and `content` of a `send_message` payload pass the
validation and the insert is rejected, the handler makes two calls, the insert
and one `error` emit on the sender's socket; no `new_message` is emitted:
whatever the connected sockets, the sender receives exactly that `error` and
every other socket receives nothing. -/
theorem failed_insert_notifies_sender_only (pool : Pool) (active : List SocketId)
    (socket : SocketId) (data username content : JSValue) (e : JSError)
    (hnd : active.Nodup)
    (hu : data.getProp "username" = .ok username)
    (hc : data.getProp "content" = .ok content)
    (hut : username.truthy = true) (hct : content.truthy = true)
    (hq : pool insertSql [username, content] = .error e) :
    sendMessage pool socket data
        = ⟨[.poolQuery insertSql [username, content],
            .socketEmit socket (.error "Failed to send message")], none⟩
    ∧ ∀ conn : SocketId,
        received active (sendMessage pool socket data).effects conn
          = if conn ∈ active ∧ conn = socket then [.error "Failed to send message"]
            else [] := by
  have hout : sendMessage pool socket data
        = ⟨[.poolQuery insertSql [username, content],
            .socketEmit socket (.error "Failed to send message")], none⟩ := by
    simp [sendMessage, sendMessageTry, hu, hc, hq, hut, hct]
  refine ⟨hout, ?_⟩
  intro conn
  rw [hout, received_cons, received_poolQuery, received_socketEmit _ _ _ _ hnd]
  simp

/-- Witness of C4: connections 1 and 2, connection 1 submits while the database
rejects the insert. -/
theorem failed_insert_notifies_sender_only_witness :
    received [1, 2] (sendMessage poolFailing 1 aliceHi).effects 1
        = [.error "Failed to send message"]
    ∧ received [1, 2] (sendMessage poolFailing 1 aliceHi).effects 2 = [] := by
  have h := failed_insert_notifies_sender_only poolFailing [1, 2] 1 aliceHi
    (.string "alice") (.string "hi") (.queryError "connection terminated")
    (by decide) rfl rfl rfl rfl rfl
  exact ⟨(h.2 1).trans rfl, (h.2 2).trans rfl⟩

/-! ## Typing notices -/

/-- C5: a `typing` event from a socket whose payload has the property
`username` makes one call, a `socket.broadcast.emit` of `user_typing` with that
`username`; every connected socket other than the sender receives exactly that
notice, and the sender receives nothing. -/
theorem typing_reaches_all_but_sender (active : List SocketId) (socket : SocketId)
    (data username : JSValue) (hnd : active.Nodup)
    (hu : data.getProp "username" = .ok username) :
    typing socket data = ⟨[.socketBroadcastEmit socket (.user_typing username)], none⟩
    ∧ (∀ conn : SocketId, conn ∈ active → conn ≠ socket →
        received active (typing socket data).effects conn = [.user_typing username])
    ∧ received active (typing socket data).effects socket = [] := by
  have hout : typing socket data
      = ⟨[.socketBroadcastEmit socket (.user_typing username)], none⟩ := by
    simp only [typing, hu]
  refine ⟨hout, ?_, ?_⟩
  · intro conn hmem hne
    rw [hout, received_socketBroadcastEmit _ _ _ _ hnd]
    simp [hmem, hne]
  · rw [hout, received_socketBroadcastEmit _ _ _ _ hnd]
    simp

/-- Witness of C5: connections 1, 2 and 3, connection 1 is typing. -/
theorem typing_reaches_all_but_sender_witness :
    typing 1 (.object [("username", .string "alice")])
        = ⟨[.socketBroadcastEmit 1 (.user_typing (.string "alice"))], none⟩
    ∧ received [1, 2, 3] (typing 1 (.object [("username", .string "alice")])).effects 3
        = [.user_typing (.string "alice")]
    ∧ received [1, 2, 3] (typing 1 (.object [("username", .string "alice")])).effects 1
        = [] := by
  have h := typing_reaches_all_but_sender [1, 2, 3] 1
    (.object [("username", .string "alice")]) (.string "alice") (by decide) rfl
  exact ⟨h.1, h.2.1 3 (by decide) (by decide), h.2.2⟩

/-- C6: for every list of connected sockets, sender and payload, the notices
delivered by the `stop_typing` handler are those delivered by the `typing`
handler, to the same sockets in the same order and with the same payload, with
`user_stop_typing` in place of `user_typing`; the notices of `typing` are one
`user_typing` with the `username` of the payload for each connected socket other
than the sender, and the two handlers throw on the same payloads. -/
theorem stop_typing_mirrors_typing (active : List SocketId) (socket : SocketId)
    (data : JSValue) :
    deliveries active (stopTyping socket data).effects
        = (deliveries active (typing socket data).effects).map
            (fun d => (d.1, d.2.stopOf))
    ∧ deliveries active (typing socket data).effects
        = (match data.getProp "username" with
          | .ok username =>
            (active.filter (fun c => c != socket)).map (fun c => (c, .user_typing username))
          | .error _ => [])
    ∧ (stopTyping socket data).thrown = (typing socket data).thrown := by
  cases hg : data.getProp "username" with
  | error e =>
    simp [stopTyping, typing, hg, deliveries]
  | ok username =>
    simp [stopTyping, typing, hg, deliveries, deliver, Effect.event?, recipients,
      OutEvent.stopOf]

/-! ## Clear all -/

/-- C7: when the delete of `DELETE /api/messages` succeeds, the handler answers
the caller with a success response and makes one `io.emit` of
`messages_cleared`, which every connected socket receives exactly once; when
the delete is rejected, the handler answers the caller with an error response
of status 500 and no notice is delivered to any socket. -/
theorem clear_all_broadcasts_iff_deleted (pool : Pool) (active : List SocketId)
    (hnd : active.Nodup) :
    (∀ result, pool deleteSql [] = .ok result →
      deleteMessages pool
          = ⟨[.poolQuery deleteSql [],
              .resJson ⟨200, true, some "All messages deleted", none⟩,
              .ioEmit .messages_cleared], none⟩
      ∧ ∀ conn : SocketId, received active (deleteMessages pool).effects conn
          = if conn ∈ active then [.messages_cleared] else [])
    ∧ (∀ e, pool deleteSql [] = .error e →
      deleteMessages pool
          = ⟨[.poolQuery deleteSql [],
              .resJson ⟨500, false, none, some "Failed to delete messages"⟩], none⟩
      ∧ deliveries active (deleteMessages pool).effects = []) := by
  constructor
  · intro result hq
    have hout : deleteMessages pool
          = ⟨[.poolQuery deleteSql [],
              .resJson ⟨200, true, some "All messages deleted", none⟩,
              .ioEmit .messages_cleared], none⟩ := by
      simp only [deleteMessages, hq]
    refine ⟨hout, ?_⟩
    intro conn
    rw [hout, received_cons, received_poolQuery, received_cons, received_resJson,
      received_ioEmit _ _ _ hnd]
    simp
  · intro e hq
    have hout : deleteMessages pool
          = ⟨[.poolQuery deleteSql [],
              .resJson ⟨500, false, none, some "Failed to delete messages"⟩], none⟩ := by
      simp only [deleteMessages, hq]
    refine ⟨hout, ?_⟩
    rw [hout]
    simp [deliveries, deliver, Effect.event?]

/-- Witness of C7: connections 1 and 2, with a database that accepts the delete
and with one that rejects it. -/
theorem clear_all_broadcasts_iff_deleted_witness :
    received [1, 2] (deleteMessages (poolReturning [])).effects 2 = [.messages_cleared]
    ∧ deliveries [1, 2] (deleteMessages poolFailing).effects = [] := by
  have hok := (clear_all_broadcasts_iff_deleted (poolReturning []) [1, 2] (by decide)).1
    ⟨[]⟩ rfl
  have hfail := (clear_all_broadcasts_iff_deleted poolFailing [1, 2] (by decide)).2
    (.queryError "connection terminated") rfl
  exact ⟨(hok.2 2).trans rfl, hfail.2⟩

/-! ## Exceptions -/

/-- C8, at the failing input: a `typing` or `stop_typing` event without payload
(`undefined`) or with the payload `null` makes the handler throw a `TypeError`
that nothing catches, before any call is made. -/
theorem typing_without_payload_throws (socket : SocketId) :
    typing socket .undefined = ⟨[], some .typeError⟩
    ∧ typing socket .null = ⟨[], some .typeError⟩
    ∧ stopTyping socket .undefined = ⟨[], some .typeError⟩
    ∧ stopTyping socket .null = ⟨[], some .typeError⟩ :=
  ⟨rfl, rfl, rfl, rfl⟩

/-! ## Persistence -/

/-- C9 as stated fails: the payload of the example passes the validation, and
no record is appended when the database rejects the insert. -/
theorem validated_message_not_appended :
    passesValidation aliceHi = true ∧ recordAppended poolFailing 1 aliceHi = false :=
  ⟨rfl, rfl⟩

/-- C9 amended: handling a `send_message` event sends an insert to the database
exactly when the payload passes the validation, with the validated `username`
and `content` as parameters, and a record is appended exactly when the payload
passes the validation and the database accepts that insert. -/
theorem record_appended_iff_validated_and_accepted (pool : Pool) (socket : SocketId)
    (data : JSValue) :
    (queries (sendMessage pool socket data).effects ≠ [] ↔ passesValidation data = true)
    ∧ (recordAppended pool socket data = true ↔
        passesValidation data = true
        ∧ ∃ username content result,
            data.getProp "username" = .ok username
            ∧ data.getProp "content" = .ok content
            ∧ pool insertSql [username, content] = .ok result) := by
  cases hu : data.getProp "username" with
  | error e =>
    simp [recordAppended, sendMessage, sendMessageTry, passesValidation, hu, queries,
      insertAccepted]
  | ok username =>
    cases hc : data.getProp "content" with
    | error e =>
      simp [recordAppended, sendMessage, sendMessageTry, passesValidation, hu, hc, queries,
        insertAccepted]
    | ok content =>
      by_cases hv : (!username.truthy || !content.truthy) = true
      · simp [recordAppended, sendMessage, sendMessageTry, passesValidation, hu, hc, hv,
          queries, insertAccepted]
      · cases hq : pool insertSql [username, content] with
        | error e =>
          simp [recordAppended, sendMessage, sendMessageTry, passesValidation, hu, hc, hv,
            hq, queries, insertAccepted, Except.isOk, Except.toBool]
        | ok result =>
          have hvalid : passesValidation data = true := by
            simp only [passesValidation, hu, hc]
            simpa using hv
          have htry : ∃ rest err, sendMessageTry pool socket data
              = (.poolQuery insertSql [username, content] :: rest, err) := by
            simp only [sendMessageTry, hu, hc, hv, hq]
            repeat' (first | exact ⟨_, _, rfl⟩ | contradiction | split)
          have hshape : ∃ rest, sendMessage pool socket data
              = ⟨.poolQuery insertSql [username, content] :: rest, none⟩ := by
            obtain ⟨rest, err, h⟩ := htry
            cases err with
            | none => exact ⟨rest, by simp only [sendMessage, h]⟩
            | some e =>
              refine ⟨rest ++ [.socketEmit socket (.error "Failed to send message")], ?_⟩
              simp only [sendMessage, h, List.cons_append]
          obtain ⟨rest, hrest⟩ := hshape
          simp [recordAppended, hrest, hvalid, queries, insertAccepted, hq, Except.isOk,
            Except.toBool]

/-! ## Frame -/

/-- While the handler does not throw, a `send_message`, `typing`, `stop_typing`
or clear-all event leaves the state as it was and broadcasts no `user_count`. -/
theorem step_frame (s : Server) (e : Event)
    (he : ∀ socket, e ≠ .connection socket ∧ e ≠ .disconnect socket)
    (hthrown : (handle s e).2.thrown = none) :
    (step s e).1 = s ∧ userCounts (step s e).2.effects = [] := by
  cases e with
  | connection socket => exact absurd rfl (he socket).1
  | disconnect socket => exact absurd rfl (he socket).2
  | send_message socket data pool =>
    simp only [handle] at hthrown
    simp [step, handle, hthrown, userCounts_sendMessage]
  | typing socket data =>
    simp only [handle] at hthrown
    simp [step, handle, hthrown, userCounts_typing]
  | stop_typing socket data =>
    simp only [handle] at hthrown
    simp [step, handle, hthrown, userCounts_stopTyping]
  | delete_messages pool =>
    simp only [handle] at hthrown
    simp [step, handle, hthrown, userCounts_deleteMessages]

/-- A `typing` event whose payload has the property `username`, dispatched any
number of times by a running process, leaves the state as it was and delivers
the same notice every time. -/
theorem run_replicate_typing (s : Server) (socket : SocketId) (data username : JSValue)
    (n : Nat) (hs : s.exited = false) (hu : data.getProp "username" = .ok username) :
    run s (List.replicate n (.typing socket data))
      = (s, List.replicate n ⟨[.socketBroadcastEmit socket (.user_typing username)], none⟩) := by
  induction n with
  | zero => rfl
  | succ n ih =>
    simp [List.replicate_succ, run, hs, step, handle, typing, hu, ih]

/-- C10, at the failing input: a `typing` event without payload, dispatched by
the running process in any state, makes the handler throw before any notice,
and the uncaught exception ends the process: the state is not the one before,
and when the event is repeated the second one is not handled, so that the two
events produce one outcome and no notice.  The same holds for `stop_typing` and
for the payload `null`. -/
theorem typing_without_payload_ends_process (connectedUsers : Int)
    (sockets : List SocketId) (socket : SocketId) :
    step ⟨connectedUsers, sockets, false⟩ (.typing socket .undefined)
        = (⟨connectedUsers, sockets, true⟩, ⟨[], some .typeError⟩)
    ∧ run ⟨connectedUsers, sockets, false⟩
          [.typing socket .undefined, .typing socket .undefined]
        = (⟨connectedUsers, sockets, true⟩, [⟨[], some .typeError⟩])
    ∧ step ⟨connectedUsers, sockets, false⟩ (.typing socket .null)
        = (⟨connectedUsers, sockets, true⟩, ⟨[], some .typeError⟩)
    ∧ step ⟨connectedUsers, sockets, false⟩ (.stop_typing socket .undefined)
        = (⟨connectedUsers, sockets, true⟩, ⟨[], some .typeError⟩)
    ∧ step ⟨connectedUsers, sockets, false⟩ (.stop_typing socket .null)
        = (⟨connectedUsers, sockets, true⟩, ⟨[], some .typeError⟩) :=
  ⟨rfl, rfl, rfl, rfl, rfl⟩

/-! ## Client -/

theorem ne_empty_of_trim_ne_empty (s : String) (h : trim s ≠ "") : s ≠ "" := by
  intro hs
  subst hs
  exact h rfl

theorem passesValidation_of_nonempty (u m : String) (hu : u ≠ "") (hm : m ≠ "") :
    passesValidation (.object [("username", .string u), ("content", .string m)]) = true := by
  simp [passesValidation, JSValue.getProp, List.lookup, JSValue.truthy, hu, hm]

/-- A payload that passes the validation never gets the notice of the validation. -/
theorem validationError_not_mem (pool : Pool) (socket : SocketId) (data : JSValue)
    (h : passesValidation data = true) :
    validationError socket ∉ (sendMessage pool socket data).effects := by
  have htry : validationError socket ∉ (sendMessageTry pool socket data).1 := by
    unfold passesValidation at h
    unfold sendMessageTry validationError
    split at h
    · next username content hu hc =>
      have hv : (!username.truthy || !content.truthy) = false := by simpa using h
      simp only [hu, hc, hv]
      repeat' (first | contradiction | split | simp)
    · simp at h
  unfold sendMessage
  split
  · next heq => rw [heq] at htry; exact htry
  · next heq =>
    rw [heq] at htry
    simp only [List.mem_append, not_or]
    exact ⟨htry, by simp [validationError]⟩

theorem sentMessages_append (a b : List ClientEffect) :
    sentMessages (a ++ b) = sentMessages a ++ sentMessages b := by
  induction a with
  | nil => rfl
  | cons x xs ih => cases x <;> simp [sentMessages, ih]

/-- The payloads the client can build: both properties are non-empty strings. -/
theorem clientStep_sentMessages (c : Client) (a : UIAction)
    (hinv : c.hasJoined = true → trim c.username ≠ "") :
    ∀ data ∈ sentMessages (clientStep c a).2,
      ∃ u m, data = .object [("username", .string u), ("content", .string m)]
        ∧ u ≠ "" ∧ m ≠ "" := by
  intro data hmem
  cases a with
  | mount => simp [clientStep, sentMessages] at hmem
  | changeUsername text =>
    simp only [clientStep] at hmem
    split at hmem <;> simp [sentMessages] at hmem
  | pressJoin =>
    simp only [clientStep, handleJoin] at hmem
    repeat' (first | split at hmem | simp [sentMessages] at hmem)
  | changeMessage text =>
    simp only [clientStep, handleMessageChange, Client.emit] at hmem
    repeat' (first | split at hmem | simp [sentMessages] at hmem)
  | pressSend =>
    simp only [clientStep] at hmem
    split at hmem
    · next hguard =>
      simp only [Bool.and_eq_true, Bool.not_eq_true', decide_eq_false_iff_not] at hguard
      obtain ⟨hj, hm⟩ := hguard
      simp only [handleSendMessage, hm, if_false, Client.emit] at hmem
      split at hmem
      · simp [sentMessages] at hmem
        exact ⟨c.username, trim c.message, hmem, ne_empty_of_trim_ne_empty _ (hinv hj), hm⟩
      · simp [sentMessages] at hmem
    · simp [sentMessages] at hmem
  | timerFires =>
    simp only [clientStep, Client.emit] at hmem
    repeat' (first | split at hmem | simp [sentMessages] at hmem)

/-- Once joined, the username of the component is non-empty after trimming. -/
theorem clientStep_hasJoined (c : Client) (a : UIAction)
    (hinv : c.hasJoined = true → trim c.username ≠ "") :
    (clientStep c a).1.hasJoined = true → trim (clientStep c a).1.username ≠ "" := by
  cases a with
  | mount => simpa [clientStep] using hinv
  | changeUsername text =>
    simp only [clientStep]
    split
    · next hj => intro h; simp at hj; simp [hj] at h
    · exact hinv
  | pressJoin =>
    simp only [clientStep, handleJoin]
    split
    · split
      · exact hinv
      · next hne => intro _; exact hne
    · exact hinv
  | changeMessage text =>
    simp only [clientStep, handleMessageChange]
    repeat' (first | split | exact hinv)
  | pressSend =>
    simp only [clientStep, handleSendMessage]
    repeat' (first | split | exact hinv)
  | timerFires =>
    simp only [clientStep]
    repeat' (first | split | exact hinv)

theorem clientRun_sentMessages (c : Client) (acts : List UIAction)
    (hinv : c.hasJoined = true → trim c.username ≠ "") :
    ∀ data ∈ sentMessages (clientRun c acts).2,
      ∃ u m, data = .object [("username", .string u), ("content", .string m)]
        ∧ u ≠ "" ∧ m ≠ "" := by
  induction acts generalizing c with
  | nil => simp [clientRun, sentMessages]
  | cons a as ih =>
    intro data hmem
    simp only [clientRun, sentMessages_append, List.mem_append] at hmem
    rcases hmem with hmem | hmem
    · exact clientStep_sentMessages c a hinv data hmem
    · exact ih _ (clientStep_hasJoined c a hinv) data hmem

/-- C11: `handleSendMessage` emits `send_message` exactly when the text is
non-empty after trimming (and the socket exists, which it does from the mount of
the component on), with the username of the state and the trimmed text as
content; `handleJoin` lets a client that has not joined join exactly when its
username is non-empty after trimming; and in every sequence of actions on the
component from its first render, each `send_message` emitted carries a non-empty
string `username` and a non-empty string `content`, passes the validation of the
server, and never gets the notice `Username and content are required`. -/
theorem client_messages_pass_validation (c : Client) (acts : List UIAction) :
    sentMessages (handleSendMessage c).2
        = (if trim c.message = "" ∨ c.socketRef = false then []
           else [.object [("username", .string c.username),
                          ("content", .string (trim c.message))]])
    ∧ ((handleJoin { c with hasJoined := false }).1.hasJoined = true ↔ trim c.username ≠ "")
    ∧ ∀ data ∈ sentMessages (clientRun Client.init acts).2,
        (∃ u m, data = .object [("username", .string u), ("content", .string m)]
          ∧ u ≠ "" ∧ m ≠ "")
        ∧ passesValidation data = true
        ∧ ∀ (pool : Pool) (socket : SocketId),
            validationError socket ∉ (sendMessage pool socket data).effects := by
  refine ⟨?_, ?_, ?_⟩
  · by_cases hm : trim c.message = ""
    · simp [handleSendMessage, hm, sentMessages]
    · cases hs : c.socketRef <;>
        simp [handleSendMessage, hm, hs, Client.emit, sentMessages]
  · by_cases hu : trim c.username = "" <;> simp [handleJoin, hu]
  · intro data hmem
    have hshape := clientRun_sentMessages Client.init acts (by simp [Client.init]) data hmem
    obtain ⟨u, m, hdata, hu, hm⟩ := hshape
    have hvalid : passesValidation data = true := by
      rw [hdata]; exact passesValidation_of_nonempty u m hu hm
    exact ⟨⟨u, m, hdata, hu, hm⟩, hvalid,
      fun pool socket => validationError_not_mem pool socket data hvalid⟩

/-- Witness of C11: a client mounts, enters the username `alice`, joins, types
` hi ` and sends; the payload emitted is that of the example and it passes the
validation of the server. -/
theorem client_messages_pass_validation_witness :
    sentMessages (clientRun Client.init
        [.mount, .changeUsername "alice", .pressJoin, .changeMessage " hi ", .pressSend]).2
      = [aliceHi]
    ∧ passesValidation aliceHi = true
    ∧ validationError 1 ∉ (sendMessage poolFailing 1 aliceHi).effects := by
  have hrun : sentMessages (clientRun Client.init
      [.mount, .changeUsername "alice", .pressJoin, .changeMessage " hi ", .pressSend]).2
      = [aliceHi] := rfl
  have h := (client_messages_pass_validation Client.init
    [.mount, .changeUsername "alice", .pressJoin, .changeMessage " hi ", .pressSend]).2.2
    aliceHi (by rw [hrun]; exact List.mem_singleton.mpr rfl)
  exact ⟨hrun, h.2.1, h.2.2 poolFailing 1⟩

end ChatRelay
